import Mathlib

/-!
Shallow embedding of the GAN data pipeline (src/gan.py, src/train.py).

Numeric arrays are modelled over ℚ; a 2-D numpy array is a list of rows
(`List (List ℚ)`).  The repository calls `get_normal_shaped_array` only with
shapes `(1, 784)` and `(1, 16)`, i.e. one-row matrices.
-/

/-- One row of a 2-D numeric array. -/
abbrev Row := List ℚ

/-- A 2-D numeric array as a list of rows. -/
abbrev Mat := List Row

/-- Comparison sort of one list of rationals, modelling numpy's value sort. -/
def srt (l : Row) : Row := List.insertionSort (fun a b => a ≤ b) l

/-- Helper for the transpose: prepend the elements of a row, one per column. -/
def consCols : Row → Mat → Mat
  | [], cols => cols
  | a :: as, [] => [a] :: consCols as []
  | a :: as, c :: cs => (a :: c) :: consCols as cs

/-- Transpose of a rectangular 2-D array. -/
def transposeM : Mat → Mat
  | [] => []
  | r :: rs => consCols r (transposeM rs)

/-- Embeds `np.sort(m, axis=0)` from src/gan.py line 38 / src/train.py line 39:
each column of the 2-D array is sorted independently across the rows. -/
def sortAxis0 (m : Mat) : Mat := transposeM ((transposeM m).map srt)

/-- Sorting along the sample axis (axis 1 of a `(1, L)` array), following the
spec's words in section 4.1: sort the elements that enumerate one sample.
Stated only to compare with the code's `sortAxis0`. -/
def specSortSampleAxis (m : Mat) : Mat := m.map srt

/-- Embeds `np.amin` over a whole 2-D array (src/gan.py line 40). -/
def amin (m : Mat) : ℚ :=
  match m.flatten with
  | [] => 0
  | a :: as => as.foldl min a

/-- Embeds `np.amax` over a whole 2-D array (src/gan.py line 45). -/
def amax (m : Mat) : ℚ :=
  match m.flatten with
  | [] => 0
  | a :: as => as.foldl max a

/-- Elementwise map over a 2-D array (numpy broadcasting of `-` and `/`). -/
def emap (f : ℚ → ℚ) (m : Mat) : Mat := m.map (fun r => r.map f)

/-- Embeds `m[i] = v` on a 2-D numpy array with a scalar `v`: the scalar is
broadcast over the whole row `i` (src/gan.py lines 52-53). -/
def setRow (m : Mat) (i : Nat) (v : ℚ) : Mat :=
  m.set i (List.replicate (m.getD i []).length v)

/-- Embeds `get_normal_shaped_array` (src/gan.py lines 24-55, identical in
src/train.py lines 25-56).  The random draw is the input `noise`; rational
division by zero yields `0` where numpy would yield `NaN` — for the one-row
shapes the repository uses, those entries are overwritten before return. -/
def get_normal_shaped_array (noise : Mat) : Mat :=
  let normal := sortAxis0 noise
  let mn := amin normal
  let new_normal := emap (fun x => x - mn) normal
  let new_normal_max := amax new_normal
  let normal_shaped := emap (fun x => x / new_normal_max) new_normal
  let normal_shaped2 := setRow normal_shaped 0 (1 / 10000)
  setRow normal_shaped2 (normal_shaped2.length - 1) (999 / 1000)

/-- Embeds `get_normal_shaped_arrays` (src/train.py lines 176-193): each draw
is shaped independently and the `(1, L)` results are reshaped to rows of an
`(n, L)` array.  The draws are the input list, one row per call. -/
def get_normal_shaped_arrays (noises : List Row) : List Row :=
  (noises.map (fun r => get_normal_shaped_array [r])).map List.flatten

/-- A concrete length-16 noise draw, as fed to the generator-training call
site `get_normal_shaped_arrays(100000, (1, 16))` of src/train.py line 256. -/
def sampleDraw16 : Row :=
  [0, 1, 2, 3, 4, 5, 6, 7, 8, 9, 10, 11, 12, 13, 14, 15]

/-! ### Dataset assembly (src/gan.py lines 76-98, src/train.py lines 94-101)

The loop `for i in range(len(normal_shaped_data))` appends `shaped[i]` with
label `[1, 0]`, then `real[i]` with label `[0, 1]`.  Indexing `real[i]` out of
bounds raises, so the result is `none` exactly when the real list is shorter
than the shaped list; a longer real list is silently truncated. -/

def get_discriminator_train_set {α : Type} :
    List α → List α → Option (List α × List (List ℕ))
  | [], _ => some ([], [])
  | _ :: _, [] => none
  | s :: ss, r :: rs =>
    match get_discriminator_train_set ss rs with
    | none => none
    | some (X, y) => some (s :: r :: X, [1, 0] :: [0, 1] :: y)

/-! ### Python slicing and the train/test split (src/train.py lines 195-229) -/

/-- Resolves a Python slice bound `k` against a list of length `n`:
negative indices count from the end, and the result is clamped to `[0, n]`. -/
def pyIndexClamp (n : Nat) (k : Int) : Nat :=
  let k2 : Int := if k < 0 then k + n else k
  if k2 < 0 then 0 else min k2.toNat n

/-- Embeds the Python slice `xs[:k]`. -/
def pySliceTo {α : Type} (xs : List α) (k : Int) : List α :=
  xs.take (pyIndexClamp xs.length k)

/-- Embeds the Python slice `xs[k:]`. -/
def pySliceFrom {α : Type} (xs : List α) (k : Int) : List α :=
  xs.drop (pyIndexClamp xs.length k)

/-- Embeds Python's `int()` on a rational: truncation toward zero. -/
def pyInt (q : ℚ) : Int := if q < 0 then -⌊-q⌋ else ⌊q⌋

/-- The tail train/test split of src/train.py lines 221-227, applied to one
list: `split = int(len(X) * fraction)`, train `X[:-split]`, test `X[-split:]`. -/
def train_test_split_tail {α : Type} (xs : List α) (f : ℚ) : List α × List α :=
  let split : Int := pyInt ((xs.length : ℚ) * f)
  (pySliceTo xs (-split), pySliceFrom xs (-split))

/-- Embeds `discriminator_train_test_set` (src/train.py lines 195-229):
the same interleaving loop as `get_discriminator_train_set`, then the tail
split applied to `X` and `y` with `split` computed from `len(X)`. -/
def discriminator_train_test_set {α : Type} (shaped real : List α) (f : ℚ) :
    Option (List α × List (List ℕ) × List α × List (List ℕ)) :=
  match get_discriminator_train_set shaped real with
  | none => none
  | some (X, y) =>
    let split : Int := pyInt ((X.length : ℚ) * f)
    some (pySliceTo X (-split), pySliceTo y (-split),
      pySliceFrom X (-split), pySliceFrom y (-split))

/-! ### Helper lemmas about the shaper on one-row matrices -/

lemma consCols_nil (r : Row) : consCols r [] = r.map (fun a => [a]) := by
  induction r with
  | nil => rfl
  | cons a as ih => simp [consCols, ih]

lemma transposeM_single (r : Row) : transposeM [r] = r.map (fun a => [a]) := by
  simp [transposeM, consCols_nil]

lemma srt_single (a : ℚ) : srt [a] = [a] := rfl

lemma transposeM_map_single (r : Row) (h : r ≠ []) :
    transposeM (r.map (fun a => [a])) = [r] := by
  induction r with
  | nil => exact absurd rfl h
  | cons a as ih =>
    cases as with
    | nil => rfl
    | cons b bs =>
      have hne : b :: bs ≠ ([] : Row) := by simp
      simp only [List.map_cons, transposeM] at ih ⊢
      rw [ih hne]
      rfl

lemma sortAxis0_single (r : Row) (h : r ≠ []) : sortAxis0 [r] = [r] := by
  unfold sortAxis0
  rw [transposeM_single]
  have hmap : (r.map (fun a => [a])).map srt = r.map (fun a => [a]) := by
    simp [srt_single]
  rw [hmap, transposeM_map_single r h]

/-- On any nonempty one-row draw — the only shape the repository ever passes —
the shaper returns the constant `0.999` row: the axis-0 sort is the identity,
and the two endpoint assignments each overwrite the single row, the second
erasing the first. -/
lemma get_normal_shaped_array_one_row (r : Row) (h : r ≠ []) :
    get_normal_shaped_array [r] = [List.replicate r.length (999 / 1000)] := by
  unfold get_normal_shaped_array
  rw [sortAxis0_single r h]
  simp [emap, setRow]

/-! ### Helper lemmas about the assembler and the split -/

lemma gdts_isNone {α : Type} (shaped real : List α) :
    (get_discriminator_train_set shaped real).isNone ↔
      real.length < shaped.length := by
  induction shaped generalizing real with
  | nil => simp [get_discriminator_train_set]
  | cons s ss ih =>
    cases real with
    | nil => simp [get_discriminator_train_set]
    | cons r rs =>
      have hih := ih rs
      cases hgd : get_discriminator_train_set ss rs with
      | none =>
        rw [hgd] at hih
        simp only [get_discriminator_train_set, hgd, List.length_cons]
        simp at hih ⊢
        omega
      | some Xy =>
        rw [hgd] at hih
        obtain ⟨X, y⟩ := Xy
        simp only [get_discriminator_train_set, hgd, List.length_cons]
        simp at hih ⊢
        omega

lemma dtts_isNone {α : Type} (shaped real : List α) (f : ℚ) :
    (discriminator_train_test_set shaped real f).isNone ↔
      real.length < shaped.length := by
  have hgn := gdts_isNone shaped real
  unfold discriminator_train_test_set
  cases hgd : get_discriminator_train_set shaped real with
  | none =>
    rw [hgd] at hgn
    simpa using hgn
  | some Xy =>
    rw [hgd] at hgn
    obtain ⟨X, y⟩ := Xy
    simpa using hgn

lemma pyIndexClamp_nonpos (n : Nat) (k : Int) (h : k ≤ -(n : Int)) :
    pyIndexClamp n k = 0 := by
  simp only [pyIndexClamp]
  split_ifs <;> omega

lemma pyIndexClamp_neg_in_range (n k : Nat) (h1 : 1 ≤ k) (h2 : k < n) :
    pyIndexClamp n (-(k : Int)) = n - k := by
  simp only [pyIndexClamp]
  split_ifs <;> omega

lemma pyInt_of_nonneg (q : ℚ) (h : 0 ≤ q) : pyInt q = ⌊q⌋ :=
  if_neg (not_lt.mpr h)

/-! ### Claims -/

/-- C1: the claim says a shaped draw of length L ≥ 2 has first value `1e-4`,
last value `0.999`, interior values strictly in `(0, 1)` and non-decreasing
order.  Evaluating the code at the failing input `[[3, 1, 2]]` (shape
`(1, 3)`, the row shape every call site uses): `normal_shaped[0] = 1e-4` and
`normal_shaped[len - 1] = 0.999` both address the single row, so the whole
sample comes back as the constant `0.999` row and its first value is not
`1e-4`. -/
theorem shaper_failing_input_constant :
    get_normal_shaped_array [[3, 1, 2]] =
      [[999 / 1000, 999 / 1000, 999 / 1000]] ∧
    ((999 : ℚ) / 1000) ≠ 1 / 10000 := by
  constructor
  · norm_num [get_normal_shaped_array, sortAxis0, transposeM, consCols, srt,
      List.insertionSort, List.orderedInsert, amin, amax, emap, setRow,
      List.replicate]
  · norm_num

/-- C2: the claim says each call of the shaper sorts the elements of the
sample axis (the axis of size 784 or 16) into non-decreasing order.  At the
failing input `[[3, 1, 2]]` the code's `np.sort(axis=0)` sorts the size-1
axis and is the identity, leaving the sample unsorted, while the sample-axis
sort the claim describes gives `[[1, 2, 3]]`. -/
theorem sort_axis0_not_sample_axis :
    sortAxis0 [[3, 1, 2]] = [[3, 1, 2]] ∧
    specSortSampleAxis [[3, 1, 2]] = [[1, 2, 3]] ∧
    sortAxis0 [[3, 1, 2]] ≠ specSortSampleAxis [[3, 1, 2]] := by
  refine ⟨?_, ?_, ?_⟩
  · norm_num [sortAxis0, transposeM, consCols, srt, List.insertionSort,
      List.orderedInsert]
  · norm_num [specSortSampleAxis, srt, List.insertionSort, List.orderedInsert]
  · norm_num [sortAxis0, specSortSampleAxis, transposeM, consCols, srt,
      List.insertionSort, List.orderedInsert]

/-- C3 counterexample: on the all-equal draw `[[5, 5, 5]]` the shaper does not
signal any error; it returns the constant `0.999` row (the division by the
zero range is absorbed by the endpoint row assignments on the one-row shapes
the repository uses). -/
theorem shaper_all_equal_returns_value :
    get_normal_shaped_array [[5, 5, 5]] =
      [[999 / 1000, 999 / 1000, 999 / 1000]] := by
  norm_num [get_normal_shaped_array, sortAxis0, transposeM, consCols, srt,
    List.insertionSort, List.orderedInsert, amin, amax, emap, setRow,
    List.replicate]

/-- C3 amended: the shaper has no zero-range detection.  On an all-equal
one-row draw of any length `L ≥ 1` the rescale divides by zero, and the
endpoint assignments then overwrite the entire single row, so the call
returns the constant `0.999` row instead of signaling
DegenerateDistribution. -/
theorem shaper_all_equal_constant (L : ℕ) (c : ℚ) (h : 1 ≤ L) :
    get_normal_shaped_array [List.replicate L c] =
      [List.replicate L (999 / 1000)] := by
  have hne : List.replicate L c ≠ [] := by
    simp only [ne_eq, List.replicate_eq_nil_iff]
    omega
  rw [get_normal_shaped_array_one_row _ hne, List.length_replicate]

/-- C3 witness: the amended theorem applied at `L = 4`, `c = 7`. -/
theorem shaper_all_equal_constant_witness :
    1 ≤ 4 ∧
    get_normal_shaped_array [List.replicate 4 (7 : ℚ)] =
      [List.replicate 4 (999 / 1000)] :=
  ⟨by norm_num, shaper_all_equal_constant 4 7 (by norm_num)⟩

/-- C4: for equally long inputs, the assembler returns `X` and `y` of length
`2 * n` where position `2 * i` holds `shaped[i]` with label `[1, 0]` and
position `2 * i + 1` holds `real[i]` with label `[0, 1]`, in original
order. -/
theorem get_discriminator_train_set_interleaves {α : Type}
    (shaped real : List α) (h : shaped.length = real.length) :
    ∃ X y, get_discriminator_train_set shaped real = some (X, y) ∧
      X.length = 2 * shaped.length ∧ y.length = 2 * shaped.length ∧
      ∀ i, i < shaped.length →
        X[2 * i]? = shaped[i]? ∧ X[2 * i + 1]? = real[i]? ∧
        y[2 * i]? = some [1, 0] ∧ y[2 * i + 1]? = some [0, 1] := by
  induction shaped generalizing real with
  | nil =>
    refine ⟨[], [], rfl, rfl, rfl, ?_⟩
    intro i hi
    exact absurd hi (by simp)
  | cons s ss ih =>
    cases real with
    | nil => simp at h
    | cons r rs =>
      have hlen : ss.length = rs.length := by simpa using h
      obtain ⟨X, y, heq, hX, hy, hidx⟩ := ih rs hlen
      refine ⟨s :: r :: X, [1, 0] :: [0, 1] :: y, ?_, ?_, ?_, ?_⟩
      · simp only [get_discriminator_train_set, heq]
      · simp only [List.length_cons, hX]
        omega
      · simp only [List.length_cons, hy]
        omega
      · intro i hi
        cases i with
        | zero => simp
        | succ j =>
          have hj : j < ss.length := by simpa using hi
          obtain ⟨h1, h2, h3, h4⟩ := hidx j hj
          have e1 : 2 * (j + 1) = 2 * j + 1 + 1 := by ring
          have e2 : 2 * (j + 1) + 1 = 2 * j + 1 + 1 + 1 := by ring
          refine ⟨?_, ?_, ?_, ?_⟩
          · rw [e1]; simpa using h1
          · rw [e2]; simpa using h2
          · rw [e1]; simpa using h3
          · rw [e2]; simpa using h4

/-- C4 witness: the interleaving theorem applied at `shaped = [5]`,
`real = [7]`. -/
theorem get_discriminator_train_set_interleaves_witness :
    ([5] : List ℕ).length = ([7] : List ℕ).length ∧
    (∃ X y, get_discriminator_train_set ([5] : List ℕ) [7] = some (X, y) ∧
      X.length = 2 * ([5] : List ℕ).length ∧
      y.length = 2 * ([5] : List ℕ).length ∧
      ∀ i, i < ([5] : List ℕ).length →
        X[2 * i]? = ([5] : List ℕ)[i]? ∧ X[2 * i + 1]? = ([7] : List ℕ)[i]? ∧
        y[2 * i]? = some [1, 0] ∧ y[2 * i + 1]? = some [0, 1]) :=
  ⟨rfl, get_discriminator_train_set_interleaves [5] [7] rfl⟩

/-- C5 counterexample: the claim quantifies over every fraction in `[0, 1)`,
but at `fraction = 0` on the dataset `[1, 2]` the code returns an empty
training set and the whole dataset as test — `X[:-0]` is the empty slice —
while the claim predicts train `= [1, 2]` (all but the last zero
examples). -/
theorem split_fraction_zero_refutes :
    train_test_split_tail ([1, 2] : List ℕ) 0 = ([], [1, 2]) ∧
    (train_test_split_tail ([1, 2] : List ℕ) 0).1 ≠ [1, 2] := by
  have h : train_test_split_tail ([1, 2] : List ℕ) 0 = ([], [1, 2]) := by
    norm_num [train_test_split_tail, pyInt, pyIndexClamp, pySliceTo,
      pySliceFrom]
  exact ⟨h, by rw [h]; simp⟩

/-- C5 amended: for every fraction in `[0, 1)` whose test size
`⌊len * fraction⌋` is at least 1, the split returns the first
`len - ⌊len * fraction⌋` examples as train and exactly the last
`⌊len * fraction⌋` examples as test; when the test size is 0 the code
instead returns an empty train and the whole dataset as test. -/
theorem split_tail_of_pos_size {α : Type} (xs : List α) (f : ℚ) (h0 : 0 ≤ f)
    (h1 : f < 1) (hks : 1 ≤ ⌊(xs.length : ℚ) * f⌋) :
    train_test_split_tail xs f =
      (xs.take (xs.length - (⌊(xs.length : ℚ) * f⌋).toNat),
        xs.drop (xs.length - (⌊(xs.length : ℚ) * f⌋).toNat)) ∧
    (xs.drop (xs.length - (⌊(xs.length : ℚ) * f⌋).toNat)).length =
      (⌊(xs.length : ℚ) * f⌋).toNat := by
  have h0q : 0 ≤ (xs.length : ℚ) * f := mul_nonneg (Nat.cast_nonneg _) h0
  have hn0 : 0 < xs.length := by
    by_contra hc
    have hz : xs.length = 0 := by omega
    rw [hz] at hks
    norm_num at hks
  have hKn : ⌊(xs.length : ℚ) * f⌋ < (xs.length : Int) := by
    apply Int.floor_lt.mpr
    push_cast
    calc (xs.length : ℚ) * f < (xs.length : ℚ) * 1 :=
          mul_lt_mul_of_pos_left h1 (by exact_mod_cast hn0)
      _ = (xs.length : ℚ) := mul_one _
  have hcl : pyIndexClamp xs.length (-⌊(xs.length : ℚ) * f⌋) =
      xs.length - (⌊(xs.length : ℚ) * f⌋).toNat := by
    have he : -⌊(xs.length : ℚ) * f⌋ =
        -(((⌊(xs.length : ℚ) * f⌋).toNat : Nat) : Int) := by
      omega
    rw [he]
    exact pyIndexClamp_neg_in_range xs.length _ (by omega) (by omega)
  constructor
  · simp only [train_test_split_tail, pySliceTo, pySliceFrom]
    rw [pyInt_of_nonneg _ h0q, hcl]
  · rw [List.length_drop]
    omega

/-- C5 witness: the amended theorem applied to a dataset of length 100 with
fraction `1/10` gives train of length 90 and test the last 10 elements. -/
theorem split_tail_of_pos_size_witness :
    (0 : ℚ) ≤ 1 / 10 ∧ (1 / 10 : ℚ) < 1 ∧
    1 ≤ ⌊((List.range 100).length : ℚ) * (1 / 10)⌋ ∧
    train_test_split_tail (List.range 100) (1 / 10) =
      ((List.range 100).take 90, (List.range 100).drop 90) := by
  refine ⟨by norm_num, by norm_num, by norm_num [List.length_range], ?_⟩
  have h := split_tail_of_pos_size (List.range 100) (1 / 10) (by norm_num)
    (by norm_num) (by norm_num [List.length_range])
  norm_num [List.length_range] at h
  exact h.1

/-- C6 counterexample: with `shaped = [5]` strictly shorter than
`real = [7, 8]` — a length mismatch — the assembler does not fail: it returns
a dataset built from the prefix of the real samples. -/
theorem assembler_shorter_shaped_no_error :
    get_discriminator_train_set ([5] : List ℕ) [7, 8] =
      some ([5, 7], [[1, 0], [0, 1]]) := by
  rfl

/-- C6 amended: the assembler fails (index out of range, not a dedicated
ShapeMismatch signal) exactly when the real list is shorter than the shaped
list; when the real list is at least as long, the excess real samples are
silently dropped and a dataset is returned.  The same holds for the
train/test variant. -/
theorem assembler_none_iff_real_shorter {α : Type} (shaped real : List α)
    (f : ℚ) :
    ((get_discriminator_train_set shaped real).isNone ↔
      real.length < shaped.length) ∧
    ((discriminator_train_test_set shaped real f).isNone ↔
      real.length < shaped.length) :=
  ⟨gdts_isNone shaped real, dtts_isNone shaped real f⟩

/-- C7 counterexample: at `fraction = 3/2` (outside `[0, 1)`) on the dataset
`[1, 2, 3]` the split does not signal InvalidFraction: it returns the
partition `([], [1, 2, 3])`. -/
theorem split_invalid_fraction_returns_partition :
    train_test_split_tail ([1, 2, 3] : List ℕ) (3 / 2) = ([], [1, 2, 3]) := by
  norm_num [train_test_split_tail, pyInt, pyIndexClamp, pySliceTo,
    pySliceFrom]

/-- C7 amended: the split validates nothing; for every fraction `≥ 1` the
negative slice index reaches past the front of the list, so the code returns
an empty training set and the entire dataset as the test set instead of
signaling InvalidFraction. -/
theorem split_fraction_ge_one {α : Type} (xs : List α) (f : ℚ) (h : 1 ≤ f) :
    train_test_split_tail xs f = ([], xs) := by
  simp only [train_test_split_tail, pySliceTo, pySliceFrom]
  have h0 : (0 : ℚ) ≤ (xs.length : ℚ) := Nat.cast_nonneg _
  have hq : (xs.length : ℚ) ≤ (xs.length : ℚ) * f := le_mul_of_one_le_right h0 h
  have hfl : (xs.length : Int) ≤ ⌊(xs.length : ℚ) * f⌋ := by
    rw [Int.le_floor]
    exact_mod_cast hq
  rw [pyInt_of_nonneg _ (le_trans h0 hq),
    pyIndexClamp_nonpos xs.length _ (by omega)]
  simp

/-- C7 witness: the amended theorem applied at `xs = [4, 5]`, `f = 2`. -/
theorem split_fraction_ge_one_witness :
    (1 : ℚ) ≤ 2 ∧ train_test_split_tail ([4, 5] : List ℕ) 2 = ([], [4, 5]) :=
  ⟨by norm_num, split_fraction_ge_one [4, 5] 2 (by norm_num)⟩

/-- C8 counterexample: shaping the concrete length-16 draw `sampleDraw16`
(the transformation every latent vector goes through before reaching
`train_generator`) yields the constant `0.999` vector, not the unmodified
standard-normal draw. -/
theorem latent_batch_not_raw_draw :
    get_normal_shaped_arrays [sampleDraw16] =
      [List.replicate 16 (999 / 1000)] ∧
    List.replicate 16 ((999 : ℚ) / 1000) ≠ sampleDraw16 := by
  constructor
  · have hne : sampleDraw16 ≠ [] := by simp [sampleDraw16]
    have h16 : sampleDraw16.length = 16 := by simp [sampleDraw16]
    simp only [get_normal_shaped_arrays, List.map_cons, List.map_nil]
    rw [get_normal_shaped_array_one_row sampleDraw16 hne, h16]
    simp
  · norm_num [sampleDraw16, List.replicate]

/-- C8 amended: each latent vector fed to the generator-training phase has
length 16, but it is not an unmodified standard-normal draw: it is the
output of the distribution shaper on a `(1, 16)` draw, which is always the
constant `0.999` vector. -/
theorem latent_batch_constant (draws : List Row)
    (h : ∀ r ∈ draws, r.length = 16 ∧ r ≠ []) :
    ∀ v ∈ get_normal_shaped_arrays draws,
      v = List.replicate 16 (999 / 1000) := by
  intro v hv
  simp only [get_normal_shaped_arrays, List.map_map, List.mem_map,
    Function.comp] at hv
  obtain ⟨r, hr, hveq⟩ := hv
  obtain ⟨hl, hne⟩ := h r hr
  rw [← hveq, get_normal_shaped_array_one_row r hne, hl]
  simp

/-- C8 witness: the amended theorem applied to the one-draw batch
`[sampleDraw16]`. -/
theorem latent_batch_constant_witness :
    (∀ r ∈ [sampleDraw16], r.length = 16 ∧ r ≠ []) ∧
    ∀ v ∈ get_normal_shaped_arrays [sampleDraw16],
      v = List.replicate 16 ((999 : ℚ) / 1000) :=
  ⟨by simp [sampleDraw16], latent_batch_constant [sampleDraw16]
    (by simp [sampleDraw16])⟩

/-- C9: for every call with a two-dimensional one-row shape `(1, L)`,
`L ≥ 1` — the only shapes used anywhere in this program — the shaper returns
the constant `0.999` row, because `normal_shaped[0] = 1e-4` and
`normal_shaped[len(normal_shaped) - 1] = 0.999` both address the single row
and the second overwrites the first. -/
theorem shaper_one_row_constant (r : Row) (h : r ≠ []) :
    get_normal_shaped_array [r] = [List.replicate r.length (999 / 1000)] :=
  get_normal_shaped_array_one_row r h

/-- C9 witness: the theorem applied at the row `[2, 0, 5, 1]`. -/
theorem shaper_one_row_constant_witness :
    ([2, 0, 5, 1] : Row) ≠ [] ∧
    get_normal_shaped_array [[2, 0, 5, 1]] =
      [List.replicate ([2, 0, 5, 1] : Row).length (999 / 1000)] :=
  ⟨by simp, shaper_one_row_constant [2, 0, 5, 1] (by simp)⟩

/-- C10: at `fraction = 0` on a non-empty dataset the split index is 0, the
slice `X[:-0]` is empty and `X[-0:]` is the whole list, so the training set
comes back empty and the test set equals the entire dataset. -/
theorem split_fraction_zero {α : Type} (xs : List α) (h : xs ≠ []) :
    train_test_split_tail xs 0 = ([], xs) := by
  simp only [train_test_split_tail, pySliceTo, pySliceFrom]
  norm_num [pyInt, pyIndexClamp]

/-- C10 witness: the theorem applied at the dataset `[3, 4]`. -/
theorem split_fraction_zero_witness :
    ([3, 4] : List ℕ) ≠ [] ∧
    train_test_split_tail ([3, 4] : List ℕ) 0 = ([], [3, 4]) :=
  ⟨by simp, split_fraction_zero [3, 4] (by simp)⟩
